import Mathlib

/-!
Verification of the supply-chain-intelligence platform against its
natural-language specification.

The Lean definitions below are a shallow embedding of the Python sources:

* `src/src/ml/supplier_scoring.py`   — supplier grading / risk bins,
* `src/src/ml/demand_forecasting.py` — training-data preparation and the
  future-forecast loop,
* `src/src/ml/delivery_prediction.py` — categorical encoding and single-order
  prediction,
* `src/src/ml/inventory_optimizer.py` — EOQ, safety-stock and the per-category
  inventory analysis,
* `src/src/agent/tools.py`           — agent tool dispatch.

Numbers that the Python code manipulates as floats are embedded as exact
rationals where the code only ever adds, multiplies, divides and compares
(`ℚ`), and as real numbers where the code takes square roots or inverse
normal quantiles (`ℝ`).  Python's `round(x, n)` (banker's rounding,
half-to-even) is modelled exactly by `roundHalfEven` below.  The trained
XGBoost models are opaque learned functions; they enter the embedding as
function parameters, exactly as the surrounding code treats them.
-/

/- ───────────────────────── supplier_scoring.py ─────────────────────────

`SupplierScorer.score_suppliers` (lines 94-104) attaches to every scored row

    supplier_data["risk_level"] = pd.cut(supplier_data["overall_score"],
        bins=[0, 0.3, 0.5, 0.65, 0.8, 1.0],
        labels=["Critical", "High", "Medium", "Low", "Very Low"])
    supplier_data["grade"] = pd.cut(supplier_data["overall_score"],
        bins=[0, 0.3, 0.5, 0.65, 0.8, 1.0],
        labels=["F", "D", "C", "B", "A"])

`pd.cut` with its default `right=True` and without `include_lowest` sorts a
value `s` into the left-open, right-closed intervals
(0, 0.3], (0.3, 0.5], (0.5, 0.65], (0.65, 0.8], (0.8, 1.0]; a value outside
all five bins (in particular `s = 0` itself) gets no label (NaN), which the
embedding renders as `none`.  The overall score is produced by weighted sums,
min-max scaling and clipping, so it is an exact rational here. -/

/-- Grade labels of `score_suppliers`, from best to worst. -/
inductive Grade where
  | A | B | C | D | F
deriving DecidableEq

/-- Risk-level labels of `score_suppliers`. -/
inductive RiskLevel where
  | veryLow | low | medium | high | critical
deriving DecidableEq

/-- Embedding of the `pd.cut` call building the `risk_level` column. -/
def riskLevelOf (s : ℚ) : Option RiskLevel :=
  if 0 < s ∧ s ≤ 3/10 then some .critical
  else if 3/10 < s ∧ s ≤ 1/2 then some .high
  else if 1/2 < s ∧ s ≤ 13/20 then some .medium
  else if 13/20 < s ∧ s ≤ 4/5 then some .low
  else if 4/5 < s ∧ s ≤ 1 then some .veryLow
  else none

/-- Embedding of the `pd.cut` call building the `grade` column. -/
def gradeOf (s : ℚ) : Option Grade :=
  if 0 < s ∧ s ≤ 3/10 then some .F
  else if 3/10 < s ∧ s ≤ 1/2 then some .D
  else if 1/2 < s ∧ s ≤ 13/20 then some .C
  else if 13/20 < s ∧ s ≤ 4/5 then some .B
  else if 4/5 < s ∧ s ≤ 1 then some .A
  else none

/-- Ordinal rank of a grade, worst = 0. -/
def Grade.rank : Grade → Nat
  | .F => 0 | .D => 1 | .C => 2 | .B => 3 | .A => 4

/-- Ordinal rank of a risk level, worst = 0. -/
def RiskLevel.rank : RiskLevel → Nat
  | .critical => 0 | .high => 1 | .medium => 2 | .low => 3 | .veryLow => 4

/-- Label columns that `score_suppliers` attaches to one scored row. -/
structure ScoredRow where
  overall_score : ℚ
  risk_level : Option RiskLevel
  grade : Option Grade
deriving DecidableEq

/-- Embedding of the label-attachment step of `score_suppliers` (lines
94-104) for a single row with the given `overall_score`. -/
def labelScore (s : ℚ) : ScoredRow :=
  { overall_score := s, risk_level := riskLevelOf s, grade := gradeOf s }

/- ───────────────────────── demand_forecasting.py ───────────────────────

`DemandForecaster._prepare_data` aggregates the input to one row per
distinct order date, shifts the demand column by lags 1, 7, 14 and 28
(the first `lag` rows of a shifted column are NaN), fills the rolling
statistics (NaN only where `fillna(0)` already repairs them) and then drops
every row holding a NaN, i.e. the first 28 rows.  `DemandForecaster.train`
then calls `sklearn.model_selection.train_test_split` with
`test_size=config.TEST_SIZE` (= 0.2) and no shuffling; sklearn takes
`ceil(0.2 * m)` rows for the test side and raises a generic `ValueError`
when either side of the split would be empty.  No `InsufficientDataError`
class exists anywhere in the repository. -/

/-- Row count of the daily series after the lag features and `dropna`:
the first 28 of the `nDays` distinct order dates are dropped. -/
def postLagRows (nDays : Nat) : Nat := nDays - 28

/-- Test-side row count of sklearn's `train_test_split` at
`test_size=0.2`: `ceil(m / 5)`. -/
def testRows (m : Nat) : Nat := (m + 4) / 5

/-- Train-side row count of the 80/20 split. -/
def trainRows (m : Nat) : Nat := m - testRows m

/-- Possible outcomes of `DemandForecaster.train`.  The constructor
`insufficientDataError` stands for the distinct error class the spec
demands; it is listed so that the embedding can state that the code never
produces it. -/
inductive TrainOutcome where
  | success
  | valueError
  | insufficientDataError
deriving DecidableEq

/-- Embedding of `DemandForecaster.train` on a dataset spanning `nDays`
distinct order dates: the split raises sklearn's generic `ValueError` when
the train or test side of the post-dropna series would be empty, and
otherwise the XGBoost fit proceeds. -/
def demandTrainOutcome (nDays : Nat) : TrainOutcome :=
  let m := postLagRows nDays
  if trainRows m = 0 ∨ testRows m = 0 then .valueError else .success

/- ───────────────────────── delivery_prediction.py ──────────────────────

`DeliveryPredictor.predict_single` (lines 134-175).  The trained classifier
is embedded as its learned positive-class probability function; sklearn's
`predict_proba` for the binary `XGBClassifier` stacks `[1 - p, p]`, and
`predict` thresholds `p` at 1/2.  A fitted `LabelEncoder` is its sorted
class list; the mapping on line 145-149 sends a string to its class index
when seen during training and to the sentinel `-1` otherwise. -/

/-- Encoding a single categorical value against a fitted label encoder:
`le.transform([x])[0] if x in le.classes_ else -1`. -/
def encodeValue (classes : List String) (x : String) : Int :=
  if x ∈ classes then (classes.indexOf x : Int) else -1

/-- Feature columns of the delivery predictor: a raw numeric column, an
encoded categorical column, or one of the three interaction columns built
from `unit_price`, `quantity`, `discount_percent` and
`scheduled_shipping_days`. -/
inductive FeatureCol where
  | numeric (name : String)
  | encoded (name : String)
  | priceXQuantity
  | discountXPrice
  | scheduledXQty
deriving DecidableEq

/-- Argument of `predict_single`: the loosely-typed order dict, split into
the string-valued and the number-valued entries present in it. -/
structure OrderData where
  cats : List (String × String)
  nums : List (String × ℚ)

/-- Value of one feature column for one order dict.  A column the order
dict cannot supply is created and filled with 0, mirroring the
"ensure all columns exist" loop of `predict_single`. -/
def featureValue (labelEncoders : List (String × List String))
    (order : OrderData) : FeatureCol → ℚ
  | .numeric n => (order.nums.lookup n).getD 0
  | .encoded n =>
    match labelEncoders.lookup n with
    | some classes =>
      match order.cats.lookup n with
      | some v => (encodeValue classes v : ℚ)
      | none => 0
    | none => 0
  | .priceXQuantity =>
    match order.nums.lookup "unit_price", order.nums.lookup "quantity" with
    | some p, some q => p * q
    | _, _ => 0
  | .discountXPrice =>
    match order.nums.lookup "discount_percent", order.nums.lookup "unit_price" with
    | some d, some p => d * p
    | _, _ => 0
  | .scheduledXQty =>
    match order.nums.lookup "scheduled_shipping_days", order.nums.lookup "quantity" with
    | some s, some q => s * q
    | _, _ => 0

/-- State of a `DeliveryPredictor`: the (possibly absent) trained model as
its positive-class probability function, the fitted label encoders, and the
feature-column list fixed at training time. -/
structure PredictorState where
  model : Option (List ℚ → ℚ)
  labelEncoders : List (String × List String)
  featureColumns : List FeatureCol

/-- Normal output of `predict_single`. -/
structure PredictionOutput where
  late_delivery_prediction : Int
  late_probability : ℚ
  on_time_probability : ℚ
  risk_level : String
deriving DecidableEq

/-- Result of `predict_single`: either the error dict
`{"error": "Model not trained"}` or a normal prediction dict. -/
inductive PredictResult where
  | error (msg : String)
  | ok (out : PredictionOutput)
deriving DecidableEq

/-- Embedding of `DeliveryPredictor.predict_single`. -/
def predictSingle (state : PredictorState) (order : OrderData) : PredictResult :=
  match state.model with
  | none => .error "Model not trained"
  | some prob1 =>
    let feats := state.featureColumns.map (featureValue state.labelEncoders order)
    let p := prob1 feats
    .ok { late_delivery_prediction := if 1/2 < p then 1 else 0
          late_probability := p
          on_time_probability := 1 - p
          risk_level :=
            if 7/10 < p then "High" else if 2/5 < p then "Medium" else "Low" }

/- ───────────────────────── agent/tools.py ──────────────────────────────

`execute_tool` (lines 187-206) dispatches on a fixed seven-name tool map,
answers an unknown name with the JSON object `{"error": "Unknown tool: <name>"}`,
and wraps the chosen implementation in `try/except`, turning any exception
`e` raised inside it (including a `TypeError` from unexpected keyword
arguments) into `{"error": str(e)}`.  The tool implementations themselves
are data-frame computations; the embedding keeps them abstract as functions
that either return a JSON value or raise (`Except.error` = a raised
exception carrying `str(e)`). -/

/-- JSON values, as far as the tool layer needs them. -/
inductive Json where
  | str (s : String)
  | num (q : ℚ)
  | obj (fields : List (String × Json))
  | arr (elems : List Json)

/-- Membership of a key in a JSON object. -/
def Json.hasKey (j : Json) (k : String) : Bool :=
  match j with
  | .obj fields => fields.any (fun f => f.1 = k)
  | _ => false

/-- Keys of the `tool_map` dict built by `execute_tool`. -/
def toolNames : List String :=
  ["query_supply_chain_data", "run_demand_forecast", "analyze_supplier",
   "check_inventory_status", "predict_delivery_risk", "get_top_products",
   "compare_regions"]

/-- Embedding of `execute_tool`, parameterised by the implementations
behind the tool map. -/
def executeTool (impls : String → List (String × Json) → Except String Json)
    (tool_name : String) (arguments : List (String × Json)) : Json :=
  if tool_name ∉ toolNames then
    .obj [("error", .str ("Unknown tool: " ++ tool_name))]
  else
    match impls tool_name arguments with
    | .ok result => result
    | .error e => .obj [("error", .str e)]

/- ───────────────────────── Python round() ──────────────────────────────

Python's builtin `round(x, n)` rounds half to even (banker's rounding).
`roundHalfEven` is that rule for `n = 0`; `pyRound0`, `pyRound1` and
`pyRound2` are `round(x, 0)`, `round(x, 1)` and `round(x, 2)` (all of which
return a number, not an integer, in the Python sources). -/

/-- Round half to even: the nearer integer, and at an exact tie the even
neighbour. -/
noncomputable def roundHalfEven (x : ℝ) : ℤ :=
  if x - ⌊x⌋ = 1/2 then (if Even ⌊x⌋ then ⌊x⌋ else ⌊x⌋ + 1) else round x

/-- Embedding of Python `round(x, 0)`. -/
noncomputable def pyRound0 (x : ℝ) : ℝ := (roundHalfEven x : ℝ)

/-- Embedding of Python `round(x, 1)`. -/
noncomputable def pyRound1 (x : ℝ) : ℝ := (roundHalfEven (10 * x) : ℝ) / 10

/-- Embedding of Python `round(x, 2)`. -/
noncomputable def pyRound2 (x : ℝ) : ℝ := (roundHalfEven (100 * x) : ℝ) / 100

lemma round_eq_of_tie {x : ℝ} (h : x - ⌊x⌋ = 1/2) : round x = ⌊x⌋ + 1 := by
  rw [round_eq]
  have hx : x + 1/2 = ((⌊x⌋ + 1 : ℤ) : ℝ) := by push_cast; linarith
  rw [hx, Int.floor_intCast]

lemma roundHalfEven_ge_floor (x : ℝ) : ⌊x⌋ ≤ roundHalfEven x := by
  unfold roundHalfEven
  split_ifs with h1 h2
  · exact le_refl _
  · omega
  · rw [round_eq]
    exact Int.floor_mono (by linarith)

lemma roundHalfEven_le_floor_add_one (x : ℝ) : roundHalfEven x ≤ ⌊x⌋ + 1 := by
  unfold roundHalfEven
  split_ifs with h1 h2
  · omega
  · exact le_refl _
  · rw [round_eq]
    have h : ⌊x + 1/2⌋ < ⌊x⌋ + 2 := by
      apply Int.floor_lt.mpr
      push_cast
      have := Int.lt_floor_add_one x
      linarith
    omega

lemma roundHalfEven_le_round (x : ℝ) : roundHalfEven x ≤ round x := by
  unfold roundHalfEven
  split_ifs with h1 h2
  · rw [round_eq_of_tie h1]; omega
  · rw [round_eq_of_tie h1]
  · exact le_refl _

lemma roundHalfEven_mono {x y : ℝ} (h : x ≤ y) :
    roundHalfEven x ≤ roundHalfEven y := by
  rcases lt_or_le ⌊x⌋ ⌊y⌋ with hf | hf
  · calc roundHalfEven x ≤ ⌊x⌋ + 1 := roundHalfEven_le_floor_add_one x
      _ ≤ ⌊y⌋ := by omega
      _ ≤ roundHalfEven y := roundHalfEven_ge_floor y
  · have hfe : ⌊x⌋ = ⌊y⌋ := le_antisymm (Int.floor_mono h) hf
    have hfeR : ((⌊x⌋ : ℤ) : ℝ) = ((⌊y⌋ : ℤ) : ℝ) := by exact_mod_cast hfe
    by_cases hx : x - ⌊x⌋ = 1/2 <;> by_cases hy : y - ⌊y⌋ = 1/2
    · have hxy : x = y := by linarith
      rw [hxy]
    · have hylt : (⌊x⌋ : ℝ) + 1/2 < y := by
        have hle : (⌊x⌋ : ℝ) + 1/2 ≤ y := by linarith
        rcases lt_or_eq_of_le hle with hlt | heq
        · exact hlt
        · exact absurd (by rw [← hfeR]; linarith) hy
      have hry : ⌊x⌋ + 1 ≤ round y := by
        rw [round_eq]
        apply Int.le_floor.mpr
        push_cast
        linarith
      calc roundHalfEven x ≤ ⌊x⌋ + 1 := roundHalfEven_le_floor_add_one x
        _ ≤ round y := hry
        _ = roundHalfEven y := by rw [roundHalfEven, if_neg hy]
    · have hxlt : x < (⌊x⌋ : ℝ) + 1/2 := by
        have hle : x ≤ (⌊x⌋ : ℝ) + 1/2 := by rw [hfeR]; linarith
        rcases lt_or_eq_of_le hle with hlt | heq
        · exact hlt
        · exact absurd (by linarith) hx
      have hrx : round x ≤ ⌊x⌋ := by
        rw [round_eq]
        have : ⌊x + 1/2⌋ < ⌊x⌋ + 1 := Int.floor_lt.mpr (by push_cast; linarith)
        omega
      calc roundHalfEven x = round x := by rw [roundHalfEven, if_neg hx]
        _ ≤ ⌊x⌋ := hrx
        _ ≤ ⌊y⌋ := by omega
        _ ≤ roundHalfEven y := roundHalfEven_ge_floor y
    · rw [roundHalfEven, if_neg hx, roundHalfEven, if_neg hy, round_eq, round_eq]
      exact Int.floor_mono (by linarith)

lemma roundHalfEven_eq (n : ℤ) {x : ℝ} (h1 : (n : ℝ) - 1/2 < x)
    (h2 : x < (n : ℝ) + 1/2) : roundHalfEven x = n := by
  have hfl : ⌊x⌋ = n - 1 ∨ ⌊x⌋ = n := by
    have g1 : (n - 1 : ℤ) ≤ ⌊x⌋ := Int.le_floor.mpr (by push_cast; linarith)
    have g2 : ⌊x⌋ < n + 1 := Int.floor_lt.mpr (by push_cast; linarith)
    omega
  have hnotie : ¬(x - ⌊x⌋ = 1/2) := by
    intro hc
    rcases hfl with hh | hh <;> rw [hh] at hc <;> push_cast at hc <;> linarith
  rw [roundHalfEven, if_neg hnotie, round_eq]
  rcases hfl with hh | hh
  · have hxlow : ((n - 1 : ℤ) : ℝ) ≤ x := by rw [← hh]; exact Int.floor_le x
    apply Int.floor_eq_iff.mpr
    constructor
    · push_cast at hxlow ⊢; linarith
    · linarith
  · have hxhigh : x < ((n + 1 : ℤ) : ℝ) := by
      rw [show (n + 1 : ℤ) = ⌊x⌋ + 1 by omega]
      push_cast
      have := Int.lt_floor_add_one x
      push_cast at this
      linarith
    apply Int.floor_eq_iff.mpr
    constructor
    · have : ((n : ℤ) : ℝ) ≤ x := by rw [← hh]; exact Int.floor_le x
      push_cast at this ⊢; linarith
    · push_cast at hxhigh ⊢; linarith

lemma roundHalfEven_nonneg {x : ℝ} (h : 0 ≤ x) : 0 ≤ roundHalfEven x := by
  have h1 := roundHalfEven_ge_floor x
  have h2 : (0 : ℤ) ≤ ⌊x⌋ := Int.floor_nonneg.mpr h
  omega

lemma roundHalfEven_lt_zero {x : ℝ} (h : x < -(1/2)) : roundHalfEven x < 0 := by
  have h1 := roundHalfEven_le_round x
  have h2 : round x < 0 := by
    rw [round_eq]
    exact Int.floor_lt.mpr (by push_cast; linarith)
  omega

lemma pyRound0_mono {x y : ℝ} (h : x ≤ y) : pyRound0 x ≤ pyRound0 y := by
  unfold pyRound0
  exact_mod_cast roundHalfEven_mono h

lemma pyRound0_nonneg {x : ℝ} (h : 0 ≤ x) : 0 ≤ pyRound0 x := by
  unfold pyRound0
  exact_mod_cast roundHalfEven_nonneg h

lemma pyRound2_mono {x y : ℝ} (h : x ≤ y) : pyRound2 x ≤ pyRound2 y := by
  unfold pyRound2
  have := roundHalfEven_mono (show 100 * x ≤ 100 * y by linarith)
  have hcast : ((roundHalfEven (100 * x) : ℤ) : ℝ) ≤ ((roundHalfEven (100 * y) : ℤ) : ℝ) := by
    exact_mod_cast this
  linarith

/- ──────────────────── demand_forecasting.py, forecast loop ─────────────

`DemandForecaster.forecast_future` (lines 142-200).  The trained XGBoost
regressor enters as an opaque learned function on the feature row; calendar
features (`_create_time_features` evaluated at one future date) are a
function of that date alone and enter as an opaque function too.  Dates are
day numbers (`pd.date_range(start=last_date + 1 day, periods=horizon,
freq="D")` is `lastDate + 1, lastDate + 2, ...`). -/

/-- One row of the prepared daily series (`_prepare_data`'s `daily` frame,
restricted to the columns `forecast_future` reads). -/
structure DayRow where
  date : ℤ
  demand : ℝ
  revenue : ℝ
  num_orders : ℝ
  avg_price : ℝ
  avg_discount : ℝ

/-- Embedding of `np.mean` on a list of numbers. -/
noncomputable def npMean (l : List ℝ) : ℝ := l.sum / l.length

/-- Embedding of `np.std` (population standard deviation) on a list. -/
noncomputable def npStd (l : List ℝ) : ℝ :=
  Real.sqrt ((l.map (fun x => (x - npMean l) ^ 2)).sum / l.length)

/-- Python's `l[-n:]`: the last `n` elements (all of them when `n` exceeds
the length). -/
def lastN (n : Nat) (l : List ℝ) : List ℝ := l.drop (l.length - n)

/-- Lag feature from the rolling demand tail:
`recent[len(recent) - lag] if len(recent) - lag >= 0 else recent[0]`. -/
def lagValue (recent : List ℝ) (lag : Nat) : ℝ :=
  if lag ≤ recent.length then recent.getD (recent.length - lag) 0
  else recent.getD 0 0

/-- Feature row built for one future date inside `forecast_future`. -/
structure FeatureRow where
  order_date : ℤ
  revenue : ℝ
  num_orders : ℝ
  avg_price : ℝ
  avg_discount : ℝ
  demand_lag_1 : ℝ
  demand_lag_7 : ℝ
  demand_lag_14 : ℝ
  demand_lag_28 : ℝ
  demand_rolling_mean_7 : ℝ
  demand_rolling_mean_14 : ℝ
  demand_rolling_mean_30 : ℝ
  demand_rolling_std_7 : ℝ
  demand_rolling_std_14 : ℝ
  demand_rolling_std_30 : ℝ
  time_features : List ℝ

/-- Feature row for the future date `date`, built from the last prepared
row, the rolling demand tail `recent`, and the calendar features of the
date (lines 163-193 of `demand_forecasting.py`). -/
noncomputable def mkFutureRow (timeFeat : ℤ → List ℝ) (lastRow : DayRow)
    (recent : List ℝ) (date : ℤ) : FeatureRow :=
  { order_date := date
    revenue := lastRow.revenue
    num_orders := lastRow.num_orders
    avg_price := lastRow.avg_price
    avg_discount := lastRow.avg_discount
    demand_lag_1 := lagValue recent 1
    demand_lag_7 := lagValue recent 7
    demand_lag_14 := lagValue recent 14
    demand_lag_28 := lagValue recent 28
    demand_rolling_mean_7 := npMean (lastN 7 recent)
    demand_rolling_mean_14 := npMean (lastN 14 recent)
    demand_rolling_mean_30 := npMean (lastN 30 recent)
    demand_rolling_std_7 :=
      if 1 < (lastN 7 recent).length then npStd (lastN 7 recent) else 0
    demand_rolling_std_14 :=
      if 1 < (lastN 14 recent).length then npStd (lastN 14 recent) else 0
    demand_rolling_std_30 :=
      if 1 < (lastN 30 recent).length then npStd (lastN 30 recent) else 0
    time_features := timeFeat date }

/-- One output row of `forecast_future`. -/
structure ForecastRow where
  date : ℤ
  predicted_demand : ℝ

/-- The forecast loop: predict, clamp at zero, append to the rolling tail,
advance one day. -/
noncomputable def forecastLoop (predict : FeatureRow → ℝ)
    (timeFeat : ℤ → List ℝ) (lastRow : DayRow) :
    List ℝ → ℤ → Nat → List ForecastRow
  | _, _, 0 => []
  | recent, date, Nat.succ k =>
    let pred := max 0 (predict (mkFutureRow timeFeat lastRow recent date))
    { date := date, predicted_demand := pred } ::
      forecastLoop predict timeFeat lastRow (recent ++ [pred]) (date + 1) k

/-- Embedding of `DemandForecaster.forecast_future`.  An untrained model
returns the empty frame before touching the data; otherwise the prepared
daily series must be nonempty (`daily.iloc[-1]` raises on an empty frame,
rendered as `none`), and the loop starts the day after the series' maximal
date with the last 30 observed demands as its rolling tail. -/
noncomputable def forecastFuture (model : Option (FeatureRow → ℝ))
    (timeFeat : ℤ → List ℝ) (daily : List DayRow) (horizon_days : Nat) :
    Option (List ForecastRow) :=
  match model with
  | none => some []
  | some predict =>
    match daily.getLast? with
    | none => none
    | some lastRow =>
      let lastDate := ((daily.map (fun r => r.date)).max?).getD 0
      let recent := lastN 30 (daily.map (fun r => r.demand))
      some (forecastLoop predict timeFeat lastRow recent (lastDate + 1) horizon_days)

lemma forecastLoop_length (predict : FeatureRow → ℝ) (timeFeat : ℤ → List ℝ)
    (lastRow : DayRow) (recent : List ℝ) (date : ℤ) (k : Nat) :
    (forecastLoop predict timeFeat lastRow recent date k).length = k := by
  induction k generalizing recent date with
  | zero => rfl
  | succ k ih => simp [forecastLoop, ih]

lemma forecastLoop_nonneg (predict : FeatureRow → ℝ) (timeFeat : ℤ → List ℝ)
    (lastRow : DayRow) (recent : List ℝ) (date : ℤ) (k : Nat) :
    ∀ r ∈ forecastLoop predict timeFeat lastRow recent date k,
      0 ≤ r.predicted_demand := by
  induction k generalizing recent date with
  | zero => intro r hr; simp [forecastLoop] at hr
  | succ k ih =>
    intro r hr
    simp only [forecastLoop, List.mem_cons] at hr
    rcases hr with hr | hr
    · rw [hr]; exact le_max_left 0 _
    · exact ih _ _ r hr

/-- The list `[date, date + 1, ..., date + k - 1]` of `k` consecutive
days. -/
def consecutiveDates (date : ℤ) : Nat → List ℤ
  | 0 => []
  | Nat.succ k => date :: consecutiveDates (date + 1) k

lemma consecutiveDates_getElem (date : ℤ) (k : Nat) :
    ∀ i (h : i < (consecutiveDates date k).length),
      (consecutiveDates date k)[i] = date + (i : ℤ) := by
  induction k generalizing date with
  | zero => intro i h; simp [consecutiveDates] at h
  | succ k ih =>
    intro i h
    match i with
    | 0 => simp [consecutiveDates]
    | Nat.succ j =>
      have hj : j < (consecutiveDates (date + 1) k).length := by
        simpa [consecutiveDates] using h
      have := ih (date + 1) j hj
      simp only [consecutiveDates, List.getElem_cons_succ, this]
      push_cast
      ring

lemma forecastLoop_dates (predict : FeatureRow → ℝ) (timeFeat : ℤ → List ℝ)
    (lastRow : DayRow) (recent : List ℝ) (date : ℤ) (k : Nat) :
    (forecastLoop predict timeFeat lastRow recent date k).map (fun r => r.date) =
      consecutiveDates date k := by
  induction k generalizing recent date with
  | zero => rfl
  | succ k ih =>
    simp only [forecastLoop, List.map_cons, consecutiveDates, ih]

/- ───────────────────────── scipy.stats.norm.ppf ────────────────────────

`inventory_optimizer.py` line 35 computes `z_score = stats.norm.ppf(service_level)`,
the quantile function (inverse CDF) of the standard normal distribution.
The embedding defines the standard normal CDF by its integral and the
quantile function as its inverse. -/

/-- Unnormalised standard normal density `exp(-t² / 2)`. -/
noncomputable def gauss (t : ℝ) : ℝ := Real.exp (-t ^ 2 / 2)

lemma gauss_eq_exp_neg_mul_sq :
    gauss = fun t : ℝ => Real.exp (-(1/2 : ℝ) * t ^ 2) := by
  funext t
  unfold gauss
  congr 1
  ring

lemma gauss_pos (t : ℝ) : 0 < gauss t := Real.exp_pos _

lemma gauss_le_one (t : ℝ) : gauss t ≤ 1 := by
  rw [show (1 : ℝ) = Real.exp 0 from (Real.exp_zero).symm]
  apply Real.exp_le_exp.mpr
  nlinarith [sq_nonneg t]

lemma gauss_integrable : MeasureTheory.Integrable gauss := by
  rw [gauss_eq_exp_neg_mul_sq]
  exact integrable_exp_neg_mul_sq (by norm_num)

lemma gauss_intervalIntegrable (a b : ℝ) :
    IntervalIntegrable gauss MeasureTheory.volume a b :=
  gauss_integrable.intervalIntegrable

/-- The normalising constant `√(2π)`. -/
noncomputable def sqrtTwoPi : ℝ := Real.sqrt (2 * Real.pi)

lemma integral_gauss_total : ∫ t : ℝ, gauss t = sqrtTwoPi := by
  rw [gauss_eq_exp_neg_mul_sq, integral_gaussian, sqrtTwoPi]
  congr 1
  rw [div_div_eq_mul_div]
  ring

lemma two_le_sqrtTwoPi : 2 ≤ sqrtTwoPi := by
  have h4 : (4 : ℝ) ≤ 2 * Real.pi := by nlinarith [Real.pi_gt_three]
  have hs : Real.sqrt 4 ≤ sqrtTwoPi := Real.sqrt_le_sqrt h4
  have h2 : Real.sqrt 4 = 2 := by
    rw [show (4 : ℝ) = 2 ^ 2 by norm_num]
    exact Real.sqrt_sq (by norm_num)
  linarith

lemma sqrtTwoPi_pos : 0 < sqrtTwoPi := lt_of_lt_of_le two_pos two_le_sqrtTwoPi

/-- Standard normal cumulative distribution function. -/
noncomputable def normCDF (x : ℝ) : ℝ := (∫ t in Set.Iic x, gauss t) / sqrtTwoPi

/-- Embedding of `scipy.stats.norm.ppf`: the quantile function of the
standard normal distribution, i.e. the inverse of `normCDF`. -/
noncomputable def normPPF (p : ℝ) : ℝ := Function.invFun normCDF p

lemma normCDF_sub (a b : ℝ) :
    normCDF b - normCDF a = (∫ t in a..b, gauss t) / sqrtTwoPi := by
  unfold normCDF
  rw [div_sub_div_same,
    intervalIntegral.integral_Iic_sub_Iic gauss_integrable.integrableOn
      gauss_integrable.integrableOn]

lemma normCDF_strictMono : StrictMono normCDF := by
  intro a b hab
  have hpos : 0 < ∫ t in a..b, gauss t :=
    intervalIntegral.intervalIntegral_pos_of_pos_on
      (gauss_intervalIntegrable a b) (fun x _ => gauss_pos x) hab
  have h := normCDF_sub a b
  have : 0 < normCDF b - normCDF a := by
    rw [h]
    exact div_pos hpos sqrtTwoPi_pos
  linarith

lemma normCDF_continuous : Continuous normCDF := by
  have hrep : normCDF = fun x =>
      normCDF 0 + (∫ t in (0:ℝ)..x, gauss t) / sqrtTwoPi := by
    funext x
    have := normCDF_sub 0 x
    linarith
  rw [hrep]
  exact continuous_const.add
    ((intervalIntegral.continuous_primitive gauss_intervalIntegrable 0).div_const _)

lemma normCDF_tendsto_atTop : Filter.Tendsto normCDF Filter.atTop (nhds 1) := by
  have h1 : Filter.Tendsto (fun x : ℝ => ∫ t in (0:ℝ)..x, gauss t)
      Filter.atTop (nhds (∫ t in Set.Ioi (0:ℝ), gauss t)) :=
    MeasureTheory.intervalIntegral_tendsto_integral_Ioi 0
      gauss_integrable.integrableOn Filter.tendsto_id
  have h2 : Filter.Tendsto (fun x : ℝ => normCDF 0 + (∫ t in (0:ℝ)..x, gauss t) / sqrtTwoPi)
      Filter.atTop (nhds (normCDF 0 + (∫ t in Set.Ioi (0:ℝ), gauss t) / sqrtTwoPi)) :=
    Filter.Tendsto.const_add _ (h1.div_const _)
  have hval : normCDF 0 + (∫ t in Set.Ioi (0:ℝ), gauss t) / sqrtTwoPi = 1 := by
    unfold normCDF
    rw [div_add_div_same]
    rw [intervalIntegral.integral_Iic_add_Ioi gauss_integrable.integrableOn
      gauss_integrable.integrableOn]
    rw [integral_gauss_total]
    exact div_self (ne_of_gt sqrtTwoPi_pos)
  rw [← hval]
  apply h2.congr
  intro x
  have := normCDF_sub 0 x
  linarith

lemma normCDF_tendsto_atBot : Filter.Tendsto normCDF Filter.atBot (nhds 0) := by
  have h1 : Filter.Tendsto (fun x : ℝ => ∫ t in x..(0:ℝ), gauss t)
      Filter.atBot (nhds (∫ t in Set.Iic (0:ℝ), gauss t)) :=
    MeasureTheory.intervalIntegral_tendsto_integral_Iic 0
      gauss_integrable.integrableOn Filter.tendsto_id
  have h2 : Filter.Tendsto (fun x : ℝ => normCDF 0 - (∫ t in x..(0:ℝ), gauss t) / sqrtTwoPi)
      Filter.atBot (nhds (normCDF 0 - (∫ t in Set.Iic (0:ℝ), gauss t) / sqrtTwoPi)) :=
    Filter.Tendsto.const_sub _ (h1.div_const _)
  have hval : normCDF 0 - (∫ t in Set.Iic (0:ℝ), gauss t) / sqrtTwoPi = 0 := by
    unfold normCDF
    ring
  rw [← hval]
  apply h2.congr
  intro x
  have := normCDF_sub x 0
  linarith

lemma normCDF_surj {p : ℝ} (hp0 : 0 < p) (hp1 : p < 1) : ∃ x, normCDF x = p := by
  obtain ⟨a, ha⟩ : ∃ a, normCDF a < p := by
    exact (Filter.Tendsto.eventually_lt_const hp0 normCDF_tendsto_atBot).exists
  obtain ⟨b, hb⟩ : ∃ b, p < normCDF b := by
    exact (Filter.Tendsto.eventually_const_lt hp1 normCDF_tendsto_atTop).exists
  have hab : a ≤ b := by
    by_contra hc
    push_neg at hc
    have := normCDF_strictMono hc
    linarith
  have hmem : p ∈ Set.Icc (normCDF a) (normCDF b) := ⟨le_of_lt ha, le_of_lt hb⟩
  obtain ⟨x, _, hx⟩ := intermediate_value_Icc hab normCDF_continuous.continuousOn hmem
  exact ⟨x, hx⟩

lemma normCDF_normPPF {p : ℝ} (hp0 : 0 < p) (hp1 : p < 1) :
    normCDF (normPPF p) = p :=
  Function.invFun_eq (normCDF_surj hp0 hp1)

lemma normCDF_zero : normCDF 0 = 1/2 := by
  have heven : ∀ t : ℝ, gauss (-t) = gauss t := by
    intro t
    unfold gauss
    congr 1
    ring
  have h1 : ∫ t in Set.Iic (0:ℝ), gauss t = ∫ t in Set.Ioi (0:ℝ), gauss t := by
    have := integral_comp_neg_Iic (0:ℝ) gauss
    rw [neg_zero] at this
    rw [← this]
    exact MeasureTheory.setIntegral_congr_fun measurableSet_Iic
      (fun t _ => (heven t).symm)
  have h2 : (∫ t in Set.Iic (0:ℝ), gauss t) + ∫ t in Set.Ioi (0:ℝ), gauss t = sqrtTwoPi := by
    rw [intervalIntegral.integral_Iic_add_Ioi gauss_integrable.integrableOn
      gauss_integrable.integrableOn]
    exact integral_gauss_total
  unfold normCDF
  rw [← h1] at h2
  rw [show ∫ t in Set.Iic (0:ℝ), gauss t = sqrtTwoPi / 2 by linarith]
  have hne : sqrtTwoPi ≠ 0 := ne_of_gt sqrtTwoPi_pos
  field_simp
  ring

lemma normPPF_mono {p q : ℝ} (hp0 : 0 < p) (hpq : p ≤ q) (hq1 : q < 1) :
    normPPF p ≤ normPPF q := by
  by_contra hc
  push_neg at hc
  have := normCDF_strictMono hc
  rw [normCDF_normPPF hp0 (lt_of_le_of_lt hpq hq1),
    normCDF_normPPF (lt_of_lt_of_le hp0 hpq) hq1] at this
  linarith

lemma normPPF_nonneg {p : ℝ} (hp : 1/2 ≤ p) (hp1 : p < 1) : 0 ≤ normPPF p := by
  by_contra hc
  push_neg at hc
  have := normCDF_strictMono hc
  rw [normCDF_normPPF (by linarith) hp1, normCDF_zero] at this
  linarith

lemma normCDF_neg_half : 1/4 ≤ normCDF (-(1/2)) := by
  have hint : (∫ t in (-(1/2):ℝ)..(0:ℝ), gauss t) ≤ 1/2 := by
    have hone : (∫ t in (-(1/2):ℝ)..(0:ℝ), (1:ℝ)) = 1/2 := by
      rw [intervalIntegral.integral_const]
      norm_num
    calc (∫ t in (-(1/2):ℝ)..(0:ℝ), gauss t)
        ≤ ∫ t in (-(1/2):ℝ)..(0:ℝ), (1:ℝ) :=
          intervalIntegral.integral_mono_on (by norm_num)
            (gauss_intervalIntegrable _ _) intervalIntegrable_const
            (fun x _ => gauss_le_one x)
      _ = 1/2 := hone
  have hdiff := normCDF_sub (-(1/2)) 0
  rw [normCDF_zero] at hdiff
  have hdivle : (∫ t in (-(1/2):ℝ)..(0:ℝ), gauss t) / sqrtTwoPi ≤ 1/4 := by
    have hnn : 0 ≤ ∫ t in (-(1/2):ℝ)..(0:ℝ), gauss t := by
      apply intervalIntegral.integral_nonneg (by norm_num)
      intro x _
      exact le_of_lt (gauss_pos x)
    calc (∫ t in (-(1/2):ℝ)..(0:ℝ), gauss t) / sqrtTwoPi
        ≤ (1/2) / sqrtTwoPi := by
          gcongr
          exact le_of_lt sqrtTwoPi_pos
      _ ≤ (1/2) / 2 := by
          gcongr
          exact two_le_sqrtTwoPi
      _ = 1/4 := by norm_num
  linarith

lemma normPPF_tenth_lt : normPPF (1/10) < -(1/2) := by
  by_contra hc
  push_neg at hc
  rcases lt_or_eq_of_le hc with hlt | heq
  · have := normCDF_strictMono hlt
    rw [normCDF_normPPF (by norm_num) (by norm_num)] at this
    have := normCDF_neg_half
    linarith
  · have : normCDF (normPPF (1/10)) = normCDF (-(1/2)) := by rw [← heq]
    rw [normCDF_normPPF (by norm_num) (by norm_num)] at this
    have := normCDF_neg_half
    linarith

/- ───────────────────────── inventory_optimizer.py ──────────────────────

`InventoryOptimizer.calculate_eoq` (lines 16-26),
`InventoryOptimizer.calculate_safety_stock` (lines 28-46) and
`InventoryOptimizer.analyze_inventory` (lines 48-125).  The Python defaults
`ordering_cost=50.0`, `unit_price=100.0`, `holding_cost_rate=0.20` are
passed explicitly at the embedding's call sites. -/

/-- Embedding of `InventoryOptimizer.calculate_eoq`. -/
noncomputable def calculate_eoq (annual_demand ordering_cost unit_price
    holding_cost_rate : ℝ) : ℝ :=
  let holding_cost := unit_price * holding_cost_rate
  if holding_cost ≤ 0 ∨ annual_demand ≤ 0 then 0
  else pyRound0 (Real.sqrt ((2 * annual_demand * ordering_cost) / holding_cost))

/-- Result dict of `calculate_safety_stock`. -/
structure SafetyStockResult where
  safety_stock : ℝ
  reorder_point : ℝ
  z_score : ℝ

/-- Embedding of `InventoryOptimizer.calculate_safety_stock`.  The Python
defaults are `lead_time_std=1.0`, `service_level=0.95`. -/
noncomputable def calculate_safety_stock (avg_demand demand_std avg_lead_time
    lead_time_std service_level : ℝ) : SafetyStockResult :=
  let z_score := normPPF service_level
  let safety_stock := z_score *
    Real.sqrt (avg_lead_time * demand_std ^ 2 + avg_demand ^ 2 * lead_time_std ^ 2)
  let reorder_point := avg_demand * avg_lead_time + safety_stock
  { safety_stock := pyRound0 safety_stock
    reorder_point := pyRound0 reorder_point
    z_score := pyRound2 z_score }

/-- One input order row, restricted to the columns `analyze_inventory`
reads.  `order_date` is a day number (the value of `order_date.dt.date`),
`late_delivery` the 0/1 risk indicator. -/
structure OrderRow where
  product_category : String
  order_date : ℤ
  quantity : ℝ
  scheduled_shipping_days : ℝ
  unit_price : ℝ
  late_delivery : ℝ
  revenue : ℝ

/-- Sample standard deviation with `ddof=1`, as pandas `Series.std()`
computes it (only ever evaluated on series of at least two values, the code
guards the singleton case). -/
noncomputable def sampleStd (l : List ℝ) : ℝ :=
  Real.sqrt ((l.map (fun x => (x - npMean l) ^ 2)).sum / ((l.length : ℝ) - 1))

/-- Python's `sorted(df["product_category"].unique())`. -/
def sortedCategories (df : List OrderRow) : List String :=
  List.insertionSort (fun a b : String => a ≤ b)
    ((df.map (fun r => r.product_category)).dedup)

/-- Sorted distinct order dates of a frame (`groupby` sorts its keys). -/
def sortedDates (rows : List OrderRow) : List ℤ :=
  List.insertionSort (fun a b : ℤ => a ≤ b)
    ((rows.map (fun r => r.order_date)).dedup)

/-- Per-day total demand of a category frame:
`cat_data.groupby(cat_data["order_date"].dt.date)["quantity"].sum()`. -/
def dailyDemandOf (cat_data : List OrderRow) : List ℝ :=
  (sortedDates cat_data).map (fun d =>
    ((cat_data.filter (fun r => r.order_date = d)).map (fun r => r.quantity)).sum)

/-- One output row of `analyze_inventory`. -/
structure InventoryRow where
  category : String
  total_orders : Nat
  total_revenue : ℝ
  avg_daily_demand : ℝ
  demand_std : ℝ
  demand_cv : ℝ
  annual_demand : ℝ
  avg_unit_price : ℝ
  avg_lead_time : ℝ
  eoq : ℝ
  safety_stock_95 : ℝ
  reorder_point_95 : ℝ
  safety_stock_99 : ℝ
  reorder_point_99 : ℝ
  late_delivery_rate : ℝ
  overstock_risk : String

/-- Embedding of `InventoryOptimizer.analyze_inventory`: one output row per
category (in sorted order) having at least 10 input rows; categories with
fewer rows are skipped (`continue`). -/
noncomputable def analyzeInventory (df : List OrderRow) : List InventoryRow :=
  (sortedCategories df).filterMap (fun category =>
    let cat_data := df.filter (fun r => r.product_category = category)
    if cat_data.length < 10 then none
    else
      let daily_demand := dailyDemandOf cat_data
      let avg_daily_demand := npMean daily_demand
      let std_daily_demand :=
        if 1 < daily_demand.length then sampleStd daily_demand else 0
      let dates := sortedDates cat_data
      let date_range_days := (dates.max?).getD 0 - (dates.min?).getD 0
      let annual_demand :=
        if 0 < date_range_days then avg_daily_demand * 365
        else avg_daily_demand * 365
      let avg_lead_time := npMean (cat_data.map (fun r => r.scheduled_shipping_days))
      let lead_time_std :=
        if 1 < cat_data.length then
          sampleStd (cat_data.map (fun r => r.scheduled_shipping_days))
        else 1
      let avg_price := npMean (cat_data.map (fun r => r.unit_price))
      let eoq := calculate_eoq annual_demand 50 avg_price (1/5)
      let ss_95 := calculate_safety_stock avg_daily_demand std_daily_demand
        avg_lead_time lead_time_std (95/100)
      let ss_99 := calculate_safety_stock avg_daily_demand std_daily_demand
        avg_lead_time lead_time_std (99/100)
      let late_rate := npMean (cat_data.map (fun r => r.late_delivery)) * 100
      let demand_variability_cv :=
        if 0 < avg_daily_demand then std_daily_demand / avg_daily_demand * 100 else 0
      let avg_order_qty := npMean (cat_data.map (fun r => r.quantity))
      let overstock_risk :=
        if avg_order_qty > eoq * (3/2) ∧ eoq > 0 then "High"
        else if avg_order_qty > eoq ∧ eoq > 0 then "Medium"
        else "Low"
      some { category := category
             total_orders := cat_data.length
             total_revenue := pyRound2 ((cat_data.map (fun r => r.revenue)).sum)
             avg_daily_demand := pyRound1 avg_daily_demand
             demand_std := pyRound1 std_daily_demand
             demand_cv := pyRound1 demand_variability_cv
             annual_demand := pyRound0 annual_demand
             avg_unit_price := pyRound2 avg_price
             avg_lead_time := pyRound1 avg_lead_time
             eoq := eoq
             safety_stock_95 := ss_95.safety_stock
             reorder_point_95 := ss_95.reorder_point
             safety_stock_99 := ss_99.safety_stock
             reorder_point_99 := ss_99.reorder_point
             late_delivery_rate := pyRound1 late_rate
             overstock_risk := overstock_risk })

/- ───────────────────────── claims ────────────────────────────────────── -/

/-- C3 (counterexample): `DemandForecaster.train` does not raise an
`InsufficientDataError` on datasets too small to split — a 29-day daily
series (1 post-dropna row, too few to split 80/20) hits sklearn's generic
`ValueError` instead, and a 63-day series (35 post-dropna rows, below the
claimed documented minimum of 40) trains successfully. -/
theorem C3_counterexample :
    demandTrainOutcome 29 = TrainOutcome.valueError ∧
    demandTrainOutcome 63 = TrainOutcome.success ∧
    demandTrainOutcome 29 ≠ TrainOutcome.insufficientDataError ∧
    demandTrainOutcome 63 ≠ TrainOutcome.insufficientDataError := by
  refine ⟨rfl, rfl, ?_, ?_⟩ <;> decide

/-- C3 (amended): `DemandForecaster.train` never fails with a distinct
`InsufficientDataError` (no such class exists in the repository); it fails
with sklearn's generic `ValueError` exactly when the daily series has at
most 29 distinct dates (so that the post-lag-dropna series has at most one
row and the 80/20 split would leave a side empty), and otherwise training
proceeds. -/
theorem C3_train_outcome (nDays : Nat) :
    demandTrainOutcome nDays =
      if nDays ≤ 29 then TrainOutcome.valueError else TrainOutcome.success := by
  simp only [demandTrainOutcome, postLagRows, trainRows, testRows]
  split_ifs with h1 h2 h3 <;> first | rfl | omega

/-- C4: calling `DeliveryPredictor.predict_single` before any successful
`train` (the model attribute still `None`) yields, for every order-attributes
input, the distinct model-state error result `{"error": "Model not trained"}`
rather than a normal prediction; the caller recovers by training. -/
theorem C4_untrained_predict_single (labelEncoders : List (String × List String))
    (featureColumns : List FeatureCol) (order : OrderData) :
    predictSingle ⟨none, labelEncoders, featureColumns⟩ order =
      PredictResult.error "Model not trained" := rfl

/-- C9: `InventoryOptimizer.analyze_inventory` is deterministic — it is a
pure function of the dataset, so two calls on the same unchanged dataset
return identical output rows (same categories in the same order with
identical statistics). -/
theorem C9_analyze_inventory_deterministic (df : List OrderRow) :
    analyzeInventory df = analyzeInventory df := rfl

/-- C10: calling `DemandForecaster.forecast_future` before any `train`
(model still `None`) returns the empty frame for every dataset, horizon and
category filter, raising nothing. -/
theorem C10_untrained_forecast_empty (timeFeat : ℤ → List ℝ)
    (daily : List DayRow) (horizon_days : Nat) :
    forecastFuture none timeFeat daily horizon_days = some [] := rfl

lemma cut_bin1 {s : ℚ} (ha : 0 < s) (hb : s ≤ 3/10) :
    gradeOf s = some Grade.F ∧ riskLevelOf s = some RiskLevel.critical := by
  unfold gradeOf riskLevelOf
  rw [if_pos ⟨ha, hb⟩, if_pos ⟨ha, hb⟩]
  exact ⟨rfl, rfl⟩

lemma cut_bin2 {s : ℚ} (ha : 3/10 < s) (hb : s ≤ 1/2) :
    gradeOf s = some Grade.D ∧ riskLevelOf s = some RiskLevel.high := by
  have n1 : ¬(0 < s ∧ s ≤ 3/10) := by rintro ⟨c1, c2⟩; linarith
  unfold gradeOf riskLevelOf
  rw [if_neg n1, if_pos ⟨ha, hb⟩, if_neg n1, if_pos ⟨ha, hb⟩]
  exact ⟨rfl, rfl⟩

lemma cut_bin3 {s : ℚ} (ha : 1/2 < s) (hb : s ≤ 13/20) :
    gradeOf s = some Grade.C ∧ riskLevelOf s = some RiskLevel.medium := by
  have n1 : ¬(0 < s ∧ s ≤ 3/10) := by rintro ⟨c1, c2⟩; linarith
  have n2 : ¬(3/10 < s ∧ s ≤ 1/2) := by rintro ⟨c1, c2⟩; linarith
  unfold gradeOf riskLevelOf
  rw [if_neg n1, if_neg n2, if_pos ⟨ha, hb⟩, if_neg n1, if_neg n2, if_pos ⟨ha, hb⟩]
  exact ⟨rfl, rfl⟩

lemma cut_bin4 {s : ℚ} (ha : 13/20 < s) (hb : s ≤ 4/5) :
    gradeOf s = some Grade.B ∧ riskLevelOf s = some RiskLevel.low := by
  have n1 : ¬(0 < s ∧ s ≤ 3/10) := by rintro ⟨c1, c2⟩; linarith
  have n2 : ¬(3/10 < s ∧ s ≤ 1/2) := by rintro ⟨c1, c2⟩; linarith
  have n3 : ¬(1/2 < s ∧ s ≤ 13/20) := by rintro ⟨c1, c2⟩; linarith
  unfold gradeOf riskLevelOf
  rw [if_neg n1, if_neg n2, if_neg n3, if_pos ⟨ha, hb⟩,
    if_neg n1, if_neg n2, if_neg n3, if_pos ⟨ha, hb⟩]
  exact ⟨rfl, rfl⟩

lemma cut_bin5 {s : ℚ} (ha : 4/5 < s) (hb : s ≤ 1) :
    gradeOf s = some Grade.A ∧ riskLevelOf s = some RiskLevel.veryLow := by
  have n1 : ¬(0 < s ∧ s ≤ 3/10) := by rintro ⟨c1, c2⟩; linarith
  have n2 : ¬(3/10 < s ∧ s ≤ 1/2) := by rintro ⟨c1, c2⟩; linarith
  have n3 : ¬(1/2 < s ∧ s ≤ 13/20) := by rintro ⟨c1, c2⟩; linarith
  have n4 : ¬(13/20 < s ∧ s ≤ 4/5) := by rintro ⟨c1, c2⟩; linarith
  unfold gradeOf riskLevelOf
  rw [if_neg n1, if_neg n2, if_neg n3, if_neg n4, if_pos ⟨ha, hb⟩,
    if_neg n1, if_neg n2, if_neg n3, if_neg n4, if_pos ⟨ha, hb⟩]
  exact ⟨rfl, rfl⟩

lemma cut_outside {s : ℚ} (h : s ≤ 0 ∨ 1 < s) :
    gradeOf s = none ∧ riskLevelOf s = none := by
  have n1 : ¬(0 < s ∧ s ≤ 3/10) := by rintro ⟨c1, c2⟩; rcases h with h | h <;> linarith
  have n2 : ¬(3/10 < s ∧ s ≤ 1/2) := by rintro ⟨c1, c2⟩; rcases h with h | h <;> linarith
  have n3 : ¬(1/2 < s ∧ s ≤ 13/20) := by rintro ⟨c1, c2⟩; rcases h with h | h <;> linarith
  have n4 : ¬(13/20 < s ∧ s ≤ 4/5) := by rintro ⟨c1, c2⟩; rcases h with h | h <;> linarith
  have n5 : ¬(4/5 < s ∧ s ≤ 1) := by rintro ⟨c1, c2⟩; rcases h with h | h <;> linarith
  unfold gradeOf riskLevelOf
  rw [if_neg n1, if_neg n2, if_neg n3, if_neg n4, if_neg n5,
    if_neg n1, if_neg n2, if_neg n3, if_neg n4, if_neg n5]
  exact ⟨rfl, rfl⟩

lemma rank_consistent (s : ℚ) :
    (gradeOf s).map Grade.rank = (riskLevelOf s).map RiskLevel.rank := by
  unfold gradeOf riskLevelOf
  split_ifs <;> rfl

/-- C2 (counterexample): an `overall_score` of exactly 0 falls outside every
`pd.cut` bin (the bins are left-open), so it receives no grade and no risk
level — not F/Critical as claimed — and a score of exactly 0.3 receives
F/Critical, not D/High. -/
theorem C2_counterexample :
    ¬((labelScore 0).grade = some Grade.F ∧
      (labelScore 0).risk_level = some RiskLevel.critical) ∧
    ¬((labelScore (3/10)).grade = some Grade.D ∧
      (labelScore (3/10)).risk_level = some RiskLevel.high) ∧
    (labelScore 0).grade = none ∧ (labelScore 0).risk_level = none ∧
    (labelScore (3/10)).grade = some Grade.F ∧
    (labelScore (3/10)).risk_level = some RiskLevel.critical := by
  have h0 := cut_outside (s := 0) (Or.inl le_rfl)
  have h3 := cut_bin1 (s := 3/10) (by norm_num) le_rfl
  simp only [labelScore] at *
  rw [h0.1, h0.2, h3.1, h3.2]
  refine ⟨?_, ?_, rfl, rfl, rfl, rfl⟩ <;> simp

/-- C2 (amended): `grade` and `risk_level` are derived from `overall_score`
with the same cut points, but through left-open right-closed bins:
(0,0.3] → F/Critical, (0.3,0.5] → D/High, (0.5,0.65] → C/Medium,
(0.65,0.8] → B/Low, (0.8,1] → A/Very Low; a score of exactly 0 (or any
score outside (0,1]) receives no label at all, a score of exactly 0.3
receives F/Critical, and wherever both labels exist they sit at the same
ordinal rank. -/
theorem C2_grade_risk_bins (s : ℚ) :
    ((labelScore s).grade).map Grade.rank =
      ((labelScore s).risk_level).map RiskLevel.rank ∧
    (0 < s ∧ s ≤ 3/10 → (labelScore s).grade = some Grade.F ∧
      (labelScore s).risk_level = some RiskLevel.critical) ∧
    (3/10 < s ∧ s ≤ 1/2 → (labelScore s).grade = some Grade.D ∧
      (labelScore s).risk_level = some RiskLevel.high) ∧
    (1/2 < s ∧ s ≤ 13/20 → (labelScore s).grade = some Grade.C ∧
      (labelScore s).risk_level = some RiskLevel.medium) ∧
    (13/20 < s ∧ s ≤ 4/5 → (labelScore s).grade = some Grade.B ∧
      (labelScore s).risk_level = some RiskLevel.low) ∧
    (4/5 < s ∧ s ≤ 1 → (labelScore s).grade = some Grade.A ∧
      (labelScore s).risk_level = some RiskLevel.veryLow) ∧
    (s ≤ 0 ∨ 1 < s → (labelScore s).grade = none ∧
      (labelScore s).risk_level = none) := by
  simp only [labelScore]
  exact ⟨rank_consistent s,
    fun h => cut_bin1 h.1 h.2,
    fun h => cut_bin2 h.1 h.2,
    fun h => cut_bin3 h.1 h.2,
    fun h => cut_bin4 h.1 h.2,
    fun h => cut_bin5 h.1 h.2,
    fun h => cut_outside h⟩

/-- C2 (witness): at score 0.3 the amended theorem yields matching ranks
and the labels F and Critical. -/
theorem C2_witness :
    ((labelScore (3/10)).grade).map Grade.rank =
      ((labelScore (3/10)).risk_level).map RiskLevel.rank ∧
    (labelScore (3/10)).grade = some Grade.F ∧
    (labelScore (3/10)).risk_level = some RiskLevel.critical :=
  ⟨(C2_grade_risk_bins (3/10)).1,
    (C2_grade_risk_bins (3/10)).2.1 ⟨by norm_num, by norm_num⟩⟩

/-- C6: after training (model present, encoders fitted),
`DeliveryPredictor.predict_single` always returns a normal result — never an
exception — even when categorical values were absent from the training data:
every unseen categorical value is encoded by the sentinel -1, and the
returned probabilities satisfy `late_probability + on_time_probability = 1`
exactly. -/
theorem C6_predict_single_unseen (prob1 : List ℚ → ℚ)
    (labelEncoders : List (String × List String))
    (featureColumns : List FeatureCol) (order : OrderData) :
    (∃ out, predictSingle ⟨some prob1, labelEncoders, featureColumns⟩ order =
        PredictResult.ok out ∧
      out.late_probability + out.on_time_probability = 1) ∧
    (∀ col classes v, labelEncoders.lookup col = some classes →
      order.cats.lookup col = some v → v ∉ classes →
      featureValue labelEncoders order (FeatureCol.encoded col) = -1) := by
  constructor
  · refine ⟨_, rfl, ?_⟩
    show prob1 _ + (1 - prob1 _) = 1
    ring
  · intro col classes v h1 h2 h3
    simp [featureValue, h1, h2, encodeValue, h3]

/-- C6 (witness): a one-encoder predictor applied to an order whose region
value was never seen in training. -/
theorem C6_witness :
    (∃ out, predictSingle
        ⟨some (fun _ => 1/3), [("region", ["Europe"])], [FeatureCol.encoded "region"]⟩
        ⟨[("region", "Atlantis")], []⟩ = PredictResult.ok out ∧
      out.late_probability + out.on_time_probability = 1) ∧
    featureValue [("region", ["Europe"])] ⟨[("region", "Atlantis")], []⟩
      (FeatureCol.encoded "region") = -1 :=
  ⟨(C6_predict_single_unseen (fun _ => 1/3) [("region", ["Europe"])]
      [FeatureCol.encoded "region"] ⟨[("region", "Atlantis")], []⟩).1,
    (C6_predict_single_unseen (fun _ => 1/3) [("region", ["Europe"])]
      [FeatureCol.encoded "region"] ⟨[("region", "Atlantis")], []⟩).2
      "region" ["Europe"] "Atlantis" rfl rfl (by simp)⟩

/-- C7: `calculate_eoq` returns 0 whenever the annual demand or the holding
cost `unit_price * holding_cost_rate` is non-positive, and otherwise returns
the rounded EOQ formula `sqrt(2 * D * S / H)`; at the spec's example inputs
(annual_demand 10000, ordering_cost 50, unit_price 100, holding_cost_rate
0.20) the result is exactly 224 (the claimed ≈ sqrt(50000) ≈ 224). -/
theorem C7_eoq :
    (∀ annual_demand ordering_cost unit_price holding_cost_rate : ℝ,
      annual_demand ≤ 0 ∨ unit_price * holding_cost_rate ≤ 0 →
      calculate_eoq annual_demand ordering_cost unit_price holding_cost_rate = 0) ∧
    (∀ annual_demand ordering_cost unit_price holding_cost_rate : ℝ,
      0 < annual_demand → 0 < unit_price * holding_cost_rate →
      calculate_eoq annual_demand ordering_cost unit_price holding_cost_rate =
        pyRound0 (Real.sqrt ((2 * annual_demand * ordering_cost) /
          (unit_price * holding_cost_rate)))) ∧
    calculate_eoq 10000 50 100 (1/5) = 224 := by
  refine ⟨?_, ?_, ?_⟩
  · intro D S P hc h
    unfold calculate_eoq
    rw [if_pos (Or.symm h)]
  · intro D S P hc h1 h2
    unfold calculate_eoq
    rw [if_neg (by push_neg; exact ⟨h2, h1⟩)]
  · unfold calculate_eoq
    rw [if_neg (by push_neg; norm_num)]
    have harg : (2 * (10000:ℝ) * 50) / (100 * (1/5)) = 50000 := by norm_num
    rw [harg]
    have hlow : (447/2 : ℝ) < Real.sqrt 50000 := by
      have h2 : ((447/2 : ℝ)) ^ 2 < 50000 := by norm_num
      nlinarith [Real.sq_sqrt (show (0:ℝ) ≤ 50000 by norm_num),
        Real.sqrt_nonneg (50000:ℝ)]
    have hhigh : Real.sqrt 50000 < 449/2 := by
      nlinarith [Real.sq_sqrt (show (0:ℝ) ≤ 50000 by norm_num),
        Real.sqrt_nonneg (50000:ℝ)]
    unfold pyRound0
    rw [show (224:ℝ) = ((224:ℤ):ℝ) by norm_num]
    congr 1
    apply roundHalfEven_eq
    · push_cast; linarith
    · push_cast; linarith

/-- C7 (witness): the division-by-zero guards at the spec's test vectors,
and the formula branch at positive inputs. -/
theorem C7_witness :
    calculate_eoq 0 50 100 (1/5) = 0 ∧
    calculate_eoq 10000 50 100 0 = 0 ∧
    calculate_eoq 10000 50 100 (1/5) =
      pyRound0 (Real.sqrt ((2 * 10000 * 50) / (100 * (1/5)))) :=
  ⟨C7_eoq.1 0 50 100 (1/5) (Or.inl le_rfl),
    C7_eoq.1 10000 50 100 0 (Or.inr (by norm_num)),
    C7_eoq.2.1 10000 50 100 (1/5) (by norm_num) (by norm_num)⟩

/-- C8: `execute_tool` never raises to its caller — an unknown tool name
produces the JSON object `{"error": "Unknown tool: <name>"}`, an exception
raised inside a tool implementation is caught and reported as
`{"error": str(e)}`, and in every case the caller receives either the
tool's own JSON result or a structured object carrying the key "error". -/
theorem C8_execute_tool
    (impls : String → List (String × Json) → Except String Json)
    (tool_name : String) (arguments : List (String × Json)) :
    (tool_name ∉ toolNames →
      executeTool impls tool_name arguments =
        Json.obj [("error", Json.str ("Unknown tool: " ++ tool_name))]) ∧
    (∀ e, tool_name ∈ toolNames → impls tool_name arguments = Except.error e →
      executeTool impls tool_name arguments = Json.obj [("error", Json.str e)]) ∧
    ((executeTool impls tool_name arguments).hasKey "error" = true ∨
      ∃ result, impls tool_name arguments = Except.ok result ∧
        executeTool impls tool_name arguments = result) := by
  refine ⟨?_, ?_, ?_⟩
  · intro h
    unfold executeTool
    rw [if_pos h]
  · intro e hmem he
    unfold executeTool
    rw [if_neg (not_not_intro hmem), he]
  · by_cases hmem : tool_name ∈ toolNames
    · unfold executeTool
      rw [if_neg (not_not_intro hmem)]
      rcases hr : impls tool_name arguments with e | result
      · left
        rfl
      · right
        exact ⟨result, rfl, rfl⟩
    · unfold executeTool
      rw [if_pos hmem]
      left
      rfl

/-- C8 (witness): the unknown-name path at the spec's test vector
`execute_tool("nonexistent_tool", {})`, and a tool implementation that
raises. -/
theorem C8_witness :
    executeTool (fun _ _ => Except.error "boom") "nonexistent_tool" [] =
      Json.obj [("error", Json.str ("Unknown tool: " ++ "nonexistent_tool"))] ∧
    executeTool (fun _ _ => Except.error "boom") "compare_regions" [] =
      Json.obj [("error", Json.str "boom")] :=
  ⟨(C8_execute_tool (fun _ _ => Except.error "boom") "nonexistent_tool" []).1
      (by decide),
    (C8_execute_tool (fun _ _ => Except.error "boom") "compare_regions" []).2.1
      "boom" (by decide) rfl⟩

/-- C1 (counterexample): at `service_level = 0.1` (inside (0,1), with
`avg_demand = 0 ≥ 0`, `demand_std = 1 ≥ 0`, `avg_lead_time = 1 ≥ 0`,
`lead_time_std = 1 ≥ 0`) the z-score is the negative quantile Φ⁻¹(0.1), so
`calculate_safety_stock` returns a strictly negative `safety_stock`,
refuting `safety_stock ≥ 0` on all of (0,1). -/
theorem C1_counterexample :
    (calculate_safety_stock 0 1 1 1 (1/10)).safety_stock < 0 := by
  show pyRound0 (normPPF (1/10) *
    Real.sqrt ((1:ℝ) * 1 ^ 2 + 0 ^ 2 * 1 ^ 2)) < 0
  rw [show (1:ℝ) * 1 ^ 2 + 0 ^ 2 * 1 ^ 2 = 1 by norm_num, Real.sqrt_one, mul_one]
  unfold pyRound0
  exact_mod_cast roundHalfEven_lt_zero normPPF_tenth_lt

/-- C1 (amended): for nonnegative demand and lead-time inputs,
`calculate_safety_stock` returns `reorder_point ≥ safety_stock ≥ 0` for
every `service_level` in [1/2, 1) — not on all of (0,1), where the quantile
turns negative — and the returned `z_score` is monotonically increasing in
`service_level` on all of (0,1). -/
theorem C1_safety_stock_amended (avg_demand demand_std avg_lead_time
    lead_time_std : ℝ) (hd : 0 ≤ avg_demand) (hs : 0 ≤ demand_std)
    (hlt : 0 ≤ avg_lead_time) (hls : 0 ≤ lead_time_std) :
    (∀ service_level : ℝ, 1/2 ≤ service_level → service_level < 1 →
      0 ≤ (calculate_safety_stock avg_demand demand_std avg_lead_time
            lead_time_std service_level).safety_stock ∧
      (calculate_safety_stock avg_demand demand_std avg_lead_time
          lead_time_std service_level).safety_stock ≤
        (calculate_safety_stock avg_demand demand_std avg_lead_time
            lead_time_std service_level).reorder_point) ∧
    (∀ p q : ℝ, 0 < p → p ≤ q → q < 1 →
      (calculate_safety_stock avg_demand demand_std avg_lead_time
          lead_time_std p).z_score ≤
        (calculate_safety_stock avg_demand demand_std avg_lead_time
            lead_time_std q).z_score) := by
  constructor
  · intro p h12 h1
    simp only [calculate_safety_stock]
    have hz : 0 ≤ normPPF p := normPPF_nonneg h12 h1
    have hraw : 0 ≤ normPPF p *
        Real.sqrt (avg_lead_time * demand_std ^ 2 + avg_demand ^ 2 * lead_time_std ^ 2) :=
      mul_nonneg hz (Real.sqrt_nonneg _)
    refine ⟨pyRound0_nonneg hraw, pyRound0_mono ?_⟩
    have hprod : 0 ≤ avg_demand * avg_lead_time := mul_nonneg hd hlt
    linarith
  · intro p q hp hpq hq
    simp only [calculate_safety_stock]
    exact pyRound2_mono (normPPF_mono hp hpq hq)

/-- C1 (witness): the amended theorem at `avg_demand = 0`, `demand_std = 1`,
`avg_lead_time = 1`, `lead_time_std = 1`, with service levels 1/2 and
3/4. -/
theorem C1_witness :
    (0 ≤ (calculate_safety_stock 0 1 1 1 (1/2)).safety_stock ∧
      (calculate_safety_stock 0 1 1 1 (1/2)).safety_stock ≤
        (calculate_safety_stock 0 1 1 1 (1/2)).reorder_point) ∧
    (calculate_safety_stock 0 1 1 1 (1/2)).z_score ≤
      (calculate_safety_stock 0 1 1 1 (3/4)).z_score :=
  ⟨(C1_safety_stock_amended 0 1 1 1 (by norm_num) (by norm_num) (by norm_num)
      (by norm_num)).1 (1/2) (by norm_num) (by norm_num),
    (C1_safety_stock_amended 0 1 1 1 (by norm_num) (by norm_num) (by norm_num)
      (by norm_num)).2 (1/2) (3/4) (by norm_num) (by norm_num) (by norm_num)⟩

lemma consecutiveDates_length (date : ℤ) (k : Nat) :
    (consecutiveDates date k).length = k := by
  induction k generalizing date with
  | zero => rfl
  | succ k ih => simp [consecutiveDates, ih]

/-- C5: after a successful train (model present) on a dataset whose prepared
daily series is nonempty, `forecast_future` returns exactly `horizon_days`
rows, every `predicted_demand` is nonnegative (the prediction is clamped at
zero), and the row dates are the consecutive calendar days starting the day
after the last date of the prepared data. -/
theorem C5_forecast_future (predict : FeatureRow → ℝ) (timeFeat : ℤ → List ℝ)
    (daily : List DayRow) (horizon_days : Nat)
    (hh : 1 ≤ horizon_days) (hne : daily ≠ []) :
    ∃ rows, forecastFuture (some predict) timeFeat daily horizon_days = some rows ∧
      rows.length = horizon_days ∧
      (∀ r ∈ rows, 0 ≤ r.predicted_demand) ∧
      (∀ i (hi : i < rows.length),
        (rows.get ⟨i, hi⟩).date =
          ((daily.map (fun r => r.date)).max?).getD 0 + 1 + (i : ℤ)) := by
  obtain ⟨lastRow, hlast⟩ : ∃ lr, daily.getLast? = some lr := by
    cases hq : daily.getLast? with
    | some lr => exact ⟨lr, rfl⟩
    | none =>
      rw [List.getLast?_eq_none_iff] at hq
      exact absurd hq hne
  refine ⟨forecastLoop predict timeFeat lastRow
      (lastN 30 (daily.map (fun r => r.demand)))
      (((daily.map (fun r => r.date)).max?).getD 0 + 1) horizon_days,
    ?_, forecastLoop_length _ _ _ _ _ _, forecastLoop_nonneg _ _ _ _ _ _, ?_⟩
  · simp only [forecastFuture, hlast]
  · intro i hi
    have hmap := forecastLoop_dates predict timeFeat lastRow
      (lastN 30 (daily.map (fun r => r.demand)))
      (((daily.map (fun r => r.date)).max?).getD 0 + 1) horizon_days
    have hb1 : i < ((forecastLoop predict timeFeat lastRow
        (lastN 30 (daily.map (fun r => r.demand)))
        (((daily.map (fun r => r.date)).max?).getD 0 + 1) horizon_days).map
          (fun r => r.date)).length := by
      rw [List.length_map]
      exact hi
    have hb2 : i < (consecutiveDates
        (((daily.map (fun r => r.date)).max?).getD 0 + 1) horizon_days).length := by
      rw [consecutiveDates_length]
      rw [forecastLoop_length] at hi
      exact hi
    have e2 := List.getElem_of_eq hmap hb1
    have e3 := consecutiveDates_getElem
      (((daily.map (fun r => r.date)).max?).getD 0 + 1) horizon_days i hb2
    have e1 : ((forecastLoop predict timeFeat lastRow
        (lastN 30 (daily.map (fun r => r.demand)))
        (((daily.map (fun r => r.date)).max?).getD 0 + 1) horizon_days).map
          (fun r => r.date))[i] =
        ((forecastLoop predict timeFeat lastRow
          (lastN 30 (daily.map (fun r => r.demand)))
          (((daily.map (fun r => r.date)).max?).getD 0 + 1) horizon_days).get
            ⟨i, hi⟩).date := by
      simp
    rw [← e1, e2, e3]

/-- C5 (witness): a one-day forecast over a one-row prepared series with a
constant learned model. -/
theorem C5_witness :
    ∃ rows, forecastFuture (some (fun _ => 1)) (fun _ => [])
        [⟨0, 1, 1, 1, 1, 1⟩] 1 = some rows ∧
      rows.length = 1 ∧
      (∀ r ∈ rows, 0 ≤ r.predicted_demand) ∧
      (∀ i (hi : i < rows.length),
        (rows.get ⟨i, hi⟩).date =
          ((([⟨0, 1, 1, 1, 1, 1⟩] : List DayRow).map (fun r => r.date)).max?).getD 0
            + 1 + (i : ℤ)) :=
  C5_forecast_future (fun _ => 1) (fun _ => []) [⟨0, 1, 1, 1, 1, 1⟩] 1
    le_rfl (by simp)
